import Mathlib

set_option maxRecDepth 100000

/-
Verification development for the Flight-Display repository.

The rendering pipeline of `src/image_generator.py` (glyph rasterizer, text
layout, colour gradient, frame composer) and the display sinks of
`src/display.py` are embedded shallowly below.  Pixel grids are modelled as
total functions `Int → Int → Bool` (row, column); every write performed by the
Python code is guarded exactly as in the source, so cells outside the guards
keep their value.  Python ints are modelled as `Int` where they can go
negative (cursor positions, scroll offsets) and as `Nat` where the source
only ever produces non-negative values (widths, scales, frame counts).
Python floats in `get_status_colour` are modelled as exact rationals `ℚ`;
Python `int()` truncation is `pyInt`.
-/

namespace FlightDisplay

/-- A font maps a character to its glyph: a list of column bitmasks of the
7 pixel rows (`fonts/dot_matrix_font.py` stores glyphs this way, per §3 of
the spec). `none` models `char not in font`. -/
abbrev Font := Char → Option (List Nat)

/-- An RGB colour, as the Python 3-tuple of ints. -/
abbrev Colour := Int × Int × Int

/-- The pixel grid `self.grid`, addressed row-first like
`self.grid[draw_y][draw_x]`.  Cells that the Python code never writes keep
their value; the all-`false` grid is the cleared state. -/
abbrev Grid := Int → Int → Bool

def emptyGrid : Grid := fun _ _ => false

/-- `self.grid[y][x] = 1`. -/
def setCell (g : Grid) (y x : Int) : Grid :=
  fun Y X => if Y = y ∧ X = x then true else g Y X

/-- `clip_x_start is not None and draw_x < clip_x_start`. -/
def belowClipStart (cs : Option Int) (dx : Int) : Bool :=
  match cs with
  | some a => decide (dx < a)
  | none => false

/-- `clip_x_end is not None and draw_x >= clip_x_end`. -/
def pastClipEnd (ce : Option Int) (dx : Int) : Bool :=
  match ce with
  | some b => decide (b ≤ dx)
  | none => false

/-- One iteration of the innermost body of `ImageGenerator.draw_text`
(`src/image_generator.py` lines 44-70), for the loop tuple
`it = (col_index, row_index, sx, sy)` of a set glyph bit. -/
def writeStep (w h scale : Nat) (cs ce : Option Int) (isColon : Bool)
    (x y : Int) (g : Grid) (it : Nat × Nat × Nat × Nat) : Grid :=
  let dx : Int := x + ((it.1 * scale + it.2.2.1 : Nat) : Int)
  let dy : Int := y + ((it.2.1 * scale + it.2.2.2 : Nat) : Int)
  if belowClipStart cs dx then g
  else if pastClipEnd ce dx then g
  else if 0 ≤ dx ∧ dx < (w : Int) ∧ 0 ≤ dy ∧ dy < (h : Int) then
    if isColon ∧ scale = 1 then
      if dx + 1 < (w : Int) ∧ dy + 1 < (h : Int) then
        setCell (setCell (setCell (setCell g dy dx) dy (dx + 1)) (dy + 1) dx) (dy + 1) (dx + 1)
      else g
    else setCell g dy dx
  else g

/-- The `(col_index, row_index, sx, sy)` tuples enumerated by the four nested
loops of `draw_text` for one glyph: columns via `enumerate(char_data)`, rows
`range(7)`, guarded by `(col_data >> row_index) & 1`, then `sx, sy` over
`range(scale)`. -/
def glyphIters (charData : List Nat) (scale : Nat) : List (Nat × Nat × Nat × Nat) :=
  charData.enum.flatMap fun p =>
    (List.range 7).flatMap fun r =>
      if (p.2 >>> r) &&& 1 = 1 then
        (List.range scale).flatMap fun sx =>
          (List.range scale).map fun sy => (p.1, r, sx, sy)
      else []

/-- Rasterize one glyph: all writes of the nested loops, in order. -/
def drawChar (w h scale : Nat) (cs ce : Option Int) (isColon : Bool)
    (x y : Int) (charData : List Nat) (g : Grid) : Grid :=
  (glyphIters charData scale).foldl (writeStep w h scale cs ce isColon x y) g

/-- The character walk of `draw_text`: for each uppercased character present
in the font, rasterize it at the cursor and advance the cursor by
`(char_width + 1) * scale`; absent characters are skipped with no advance. -/
def drawTextAux (font : Font) (w h scale : Nat) (cs ce : Option Int) (y : Int) :
    List Char → Int → Grid → Grid
  | [], _, g => g
  | c :: rest, x, g =>
    match font c with
    | some charData =>
        drawTextAux font w h scale cs ce y rest (x + ((charData.length + 1) * scale : Nat))
          (drawChar w h scale cs ce (c = ':') x y charData g)
    | none => drawTextAux font w h scale cs ce y rest x g

/-- `ImageGenerator.draw_text(text, x_start, y_start, font, scale,
clip_x_start, clip_x_end)` on a `width × height` generator.  `text.upper()`
is modelled by mapping `Char.toUpper` over the characters. -/
def drawText (w h : Nat) (font : Font) (text : String) (x y : Int)
    (scale : Nat) (cs ce : Option Int) (g : Grid) : Grid :=
  drawTextAux font w h scale cs ce y (text.toList.map Char.toUpper) x g

/-- The loop body of `get_text_width`: `if char in font:
width += (len(font[char]) + 1) * scale`. -/
def widthStep (font : Font) (scale : Nat) (acc : Nat) (c : Char) : Nat :=
  match font c with
  | some charData => acc + (charData.length + 1) * scale
  | none => acc

/-- `ImageGenerator.get_text_width(text, font, scale)`: accumulate
`widthStep` over the uppercased characters, then `max(0, width - scale)`. -/
def get_text_width (font : Font) (text : String) (scale : Nat) : Nat :=
  let width := (text.toList.map Char.toUpper).foldl (widthStep font scale) 0
  max 0 (width - scale)

/-- A rendered frame: the Pillow image as a total pixel function `img x y`,
black outside the `width × height` canvas (matching `Image.new` + `putpixel`). -/
abbrev Image := Int → Int → Colour

def black : Colour := (0, 0, 0)

def blackImage : Image := fun _ _ => black

/-- `ImageGenerator.get_image(on_colour)`: every set grid cell gets the
on-colour, everything else is black. -/
def get_image (w h : Nat) (g : Grid) (on_colour : Colour) : Image :=
  fun x y =>
    if 0 ≤ x ∧ x < (w : Int) ∧ 0 ≤ y ∧ y < (h : Int) ∧ g y x = true then on_colour
    else black

/-- Python `int()` on a rational: truncation toward zero. -/
def pyInt (q : ℚ) : Int := if 0 ≤ q then ⌊q⌋ else -⌊-q⌋

/-- `get_status_colour(diff_seconds)` (`src/image_generator.py` lines 83-115),
with the float arithmetic carried out exactly in `ℚ`. -/
def get_status_colour (diff_seconds : ℚ) : Colour :=
  let green : Colour := (0, 255, 0)
  let yellow : Colour := (255, 255, 0)
  let red : Colour := (255, 0, 0)
  if diff_seconds ≤ 0 then
    let percent := 1 - diff_seconds / (-3600)
    let percent := max 0 (min 1 percent)
    (pyInt ((green.1 : ℚ) * (1 - percent) + (yellow.1 : ℚ) * percent), 255, 0)
  else
    let percent := diff_seconds / 7200
    let percent := max 0 (min 1 percent)
    (255, pyInt ((yellow.2.1 : ℚ) * (1 - percent) + (red.2.1 : ℚ) * percent), 0)

/-- Modelled from the spec: the font table `fonts/dot_matrix_font.py` is
imported by `src/image_generator.py` but its source is not available here.
Per §3 glyphs are columns of 7-bit masks, width ≥ 1, keyed by uppercase
letters/digits/punctuation.  Per §4.1 the colon's lit cell sits at the
glyph's nominal top-left, so its glyph is a single column with bit 0 set.
A space glyph exists and is blank (the §8 scenario needs "LOS ANGELES" to
overflow the 60-pixel lane, which requires the space to advance the cursor);
the capital A glyph is the conventional 5×7 dot-matrix bitmap. -/
def DOT_MATRIX_FONT : Font := fun c =>
  if c = 'A' then some [126, 9, 9, 9, 126]
  else if c = ' ' then some [0, 0]
  else if c = ':' then some [1]
  else none

def MATRIX_WIDTH : Nat := 64

def MATRIX_HEIGHT : Nat := 32

def margin : Nat := 2

/-- The grid of one frame of the scrolling branch of
`generate_display_image` (lines 177-202): the generator is cleared, row 1 is
drawn statically in two parts, and each of rows 2 and 3 is drawn either as
two shifted scrolling copies or once statically. -/
def scrollGrid (font : Font) (line_1_left line_1_right line_2_text line_3_text : String)
    (x_pos_line_1_right : Int) (scroll_2 scroll_3 : Bool) (width_2 width_3 : Nat)
    (i : Nat) : Grid :=
  let scroll_text_2 := if scroll_2 then line_2_text ++ "   " else line_2_text
  let scroll_text_3 := if scroll_3 then line_3_text ++ "   " else line_3_text
  let g := emptyGrid
  let g := drawText MATRIX_WIDTH MATRIX_HEIGHT font line_1_left (margin : Int) 1 1 none none g
  let g := drawText MATRIX_WIDTH MATRIX_HEIGHT font line_1_right x_pos_line_1_right 1 1 none none g
  let g :=
    if scroll_2 then
      drawText MATRIX_WIDTH MATRIX_HEIGHT font scroll_text_2
        ((margin : Int) - i + width_2 + 20) 14 1 none none
        (drawText MATRIX_WIDTH MATRIX_HEIGHT font scroll_text_2 ((margin : Int) - i) 14 1 none none g)
    else
      drawText MATRIX_WIDTH MATRIX_HEIGHT font line_2_text (margin : Int) 14 1 none none g
  let g :=
    if scroll_3 then
      drawText MATRIX_WIDTH MATRIX_HEIGHT font scroll_text_3
        ((margin : Int) - i + width_3 + 20) 24 1 none none
        (drawText MATRIX_WIDTH MATRIX_HEIGHT font scroll_text_3 ((margin : Int) - i) 24 1 none none g)
    else
      drawText MATRIX_WIDTH MATRIX_HEIGHT font line_3_text (margin : Int) 24 1 none none g
  g

/-- The result of `generate_display_image`: the static branch returns a
single Pillow image, the scrolling branch a list of frames. -/
inductive DisplayOutput where
  | static (img : Image)
  | animation (frames : List Image)

/-- The frame sequence a display sink receives: `SimulatorDisplay.show`
wraps a non-list argument as `[images]`. -/
def DisplayOutput.toFrames : DisplayOutput → List Image
  | .static img => [img]
  | .animation frames => frames

/-- `generate_display_image(flight_number, origin_code, aircraft_type,
origin_city, time_difference_seconds)` (`src/image_generator.py`
lines 118-205). -/
def generate_display_image (font : Font) (flight_number origin_code aircraft_type
    origin_city : String) (time_difference_seconds : ℚ) : DisplayOutput :=
  let ON_COLOUR := get_status_colour time_difference_seconds
  let line_1_left := origin_code
  let line_1_right := flight_number
  let line_2_text := origin_city
  let line_3_text := aircraft_type
  let max_width := MATRIX_WIDTH - 2 * margin
  let width_line_1_right := get_text_width font line_1_right 1
  let x_pos_line_1_right : Int := (MATRIX_WIDTH : Int) - width_line_1_right - (margin : Int)
  let width_2 := get_text_width font line_2_text 1
  let width_3 := get_text_width font line_3_text 1
  let scroll_2 : Bool := decide (max_width < width_2)
  let scroll_3 : Bool := decide (max_width < width_3)
  if !(scroll_2 || scroll_3) then
    let g := emptyGrid
    let g := drawText MATRIX_WIDTH MATRIX_HEIGHT font line_1_left (margin : Int) 1 1 none none g
    let g := drawText MATRIX_WIDTH MATRIX_HEIGHT font line_1_right x_pos_line_1_right 1 1 none none g
    let g := drawText MATRIX_WIDTH MATRIX_HEIGHT font line_2_text (margin : Int) 14 1 none none g
    let g := drawText MATRIX_WIDTH MATRIX_HEIGHT font line_3_text (margin : Int) 24 1 none none g
    .static (get_image MATRIX_WIDTH MATRIX_HEIGHT g ON_COLOUR)
  else
    let ls0 : Nat := 0
    let ls1 := if scroll_2 then max ls0 width_2 else ls0
    let longest_scroll := if scroll_3 then max ls1 width_3 else ls1
    .animation ((List.range (longest_scroll + MATRIX_WIDTH)).map fun i =>
      get_image MATRIX_WIDTH MATRIX_HEIGHT
        (scrollGrid font line_1_left line_1_right line_2_text line_3_text
          x_pos_line_1_right scroll_2 scroll_3 width_2 width_3 i) ON_COLOUR)

/-- Character walk with the colon override disabled: every glyph, the colon
included, is rasterized from its literal bitmap.  Spec-side definition used
to state §4.1's "rendered from its literal bitmap like every other glyph". -/
def drawTextPlainAux (font : Font) (w h scale : Nat) (cs ce : Option Int) (y : Int) :
    List Char → Int → Grid → Grid
  | [], _, g => g
  | c :: rest, x, g =>
    match font c with
    | some charData =>
        drawTextPlainAux font w h scale cs ce y rest (x + ((charData.length + 1) * scale : Nat))
          (drawChar w h scale cs ce false x y charData g)
    | none => drawTextPlainAux font w h scale cs ce y rest x g

/-- Literal-bitmap rendering of a string (no colon override anywhere). -/
def drawTextPlain (w h : Nat) (font : Font) (text : String) (x y : Int)
    (scale : Nat) (cs ce : Option Int) (g : Grid) : Grid :=
  drawTextPlainAux font w h scale cs ce y (text.toList.map Char.toUpper) x g

/-- The width §4.2 of the spec prescribes: the sum of
`(glyph_width + 1) * scale` over the uppercased characters of the text that
are present in the font (spec-side definition, compared against
`get_text_width`). -/
def sumGlyphWidths (font : Font) (text : String) (scale : Nat) : Nat :=
  ((text.toList.map Char.toUpper).filterMap font).foldl
    (fun acc charData => acc + (charData.length + 1) * scale) 0

/-- The static frame as §4.4 of the spec describes it: three rows at
y = 1, 14, 24 on the 64×32 panel, rows 2 and 3 left-aligned at x = margin = 2,
row 1 a left label at x = margin plus a right label at
x = panel_width − measure(label) − margin, all in the single gradient colour
of the message's time delta.  Spec-side definition, compared against the
static branch of `generate_display_image`. -/
def staticFrameSpec (font : Font) (flight_number origin_code aircraft_type origin_city : String)
    (delta : ℚ) : Image :=
  let colour := get_status_colour delta
  let g := drawText 64 32 font origin_code 2 1 1 none none emptyGrid
  let g := drawText 64 32 font flight_number
    (64 - (get_text_width font flight_number 1 : Int) - 2) 1 1 none none g
  let g := drawText 64 32 font origin_city 2 14 1 none none g
  let g := drawText 64 32 font aircraft_type 2 24 1 none none g
  get_image 64 32 g colour

/-- An artifact written by `SimulatorDisplay.show`. -/
inductive SimArtifact where
  | png (path : String)
  | gif (path : String) (frameCount : Nat)

/-- `SimulatorDisplay.show(images, flight_data)` (`src/display.py` lines
66-95) for an argument that is already a list: the artifact it saves.
`none` models the `IndexError` that `images[0]` raises on an empty list
(the static branch runs whenever `len(images) <= 1`). -/
def simulatorShow (save_folder : String) (images : List Image) (flight_number : String) :
    Option SimArtifact :=
  let flight_num := flight_number.replace "/" "-"
  if images.length > 1 then
    some (.gif (save_folder ++ "/flight_display_" ++ flight_num ++ ".gif") images.length)
  else
    match images with
    | _ :: _ => some (.png (save_folder ++ "/flight_display_" ++ flight_num ++ ".png"))
    | [] => none

/-- The state `MatrixDisplay` shares with its worker: the published frames. -/
structure MatrixState where
  frames : List Image

/-- `MatrixDisplay.show` (`src/display.py` lines 166-169). -/
def matrixShow (st : MatrixState) (images : List Image) : MatrixState :=
  { st with frames := images }

/-- `MatrixDisplay.clear` (`src/display.py` lines 171-174). -/
def matrixClear (st : MatrixState) : MatrixState :=
  { st with frames := [] }

/-- What one iteration of `MatrixDisplay._run_loop` does with the frame list
it snapshots (`src/display.py` lines 128-150). -/
inductive PanelAction where
  | clearPanel
  | showStatic (frame : Image)
  | playAnimation (frames : List Image)

def matrixLoopStep (current_frames : List Image) : PanelAction :=
  match current_frames with
  | [] => .clearPanel
  | f :: rest =>
      if (f :: rest).length > 1 then .playAnimation (f :: rest)
      else .showStatic f

end FlightDisplay

namespace FlightDisplay

/-! Preservation lemmas for the rasterizer: cells a write is guarded against
are left untouched. -/

lemma setCell_ne (g : Grid) (y x Y X : Int) (h : ¬(Y = y ∧ X = x)) :
    setCell g y x Y X = g Y X := by
  simp [setCell, h]

lemma setCell_eq_or (g : Grid) (y x Y X : Int) :
    setCell g y x Y X = (g Y X || decide (Y = y ∧ X = x)) := by
  by_cases h : Y = y ∧ X = x
  · simp [setCell, h]
  · simp [setCell, h]

lemma foldl_preserve {α : Type} (step : Grid → α → Grid) (Y X : Int)
    (h : ∀ g a, step g a Y X = g Y X) (l : List α) :
    ∀ g : Grid, (l.foldl step g) Y X = g Y X := by
  induction l with
  | nil => intro g; rfl
  | cons a t ih => intro g; rw [List.foldl_cons, ih (step g a), h]

lemma writeStep_out_of_grid {w h scale : Nat} {cs ce : Option Int} {isColon : Bool}
    {x y : Int} (g : Grid) (it : Nat × Nat × Nat × Nat) {Y X : Int}
    (hout : X < 0 ∨ (w : Int) ≤ X ∨ Y < 0 ∨ (h : Int) ≤ Y) :
    writeStep w h scale cs ce isColon x y g it Y X = g Y X := by
  simp only [writeStep]
  generalize (it.1 * scale + it.2.2.1 : Nat) = nx
  generalize (it.2.1 * scale + it.2.2.2 : Nat) = ny
  split
  · rfl
  split
  · rfl
  split
  · next hb =>
    split
    · split
      · next hcb =>
        rw [setCell_ne, setCell_ne, setCell_ne, setCell_ne] <;> omega
      · rfl
    · rw [setCell_ne]; omega
  · rfl

lemma writeStep_row_lt {w h scale : Nat} {cs ce : Option Int} {isColon : Bool}
    {x y : Int} (g : Grid) (it : Nat × Nat × Nat × Nat) {Y X : Int}
    (hY : Y < y) :
    writeStep w h scale cs ce isColon x y g it Y X = g Y X := by
  simp only [writeStep]
  generalize (it.1 * scale + it.2.2.1 : Nat) = nx
  generalize (it.2.1 * scale + it.2.2.2 : Nat) = ny
  split
  · rfl
  split
  · rfl
  split
  · split
    · split
      · rw [setCell_ne, setCell_ne, setCell_ne, setCell_ne] <;> omega
      · rfl
    · rw [setCell_ne]; omega
  · rfl

lemma writeStep_clip {w h scale : Nat} {cs ce : Option Int} {isColon : Bool}
    {x y : Int} (g : Grid) (it : Nat × Nat × Nat × Nat) {Y X : Int}
    (hplain : isColon = false ∨ scale ≠ 1)
    (hwin : (∃ a, cs = some a ∧ X < a) ∨ ∃ b, ce = some b ∧ b ≤ X) :
    writeStep w h scale cs ce isColon x y g it Y X = g Y X := by
  simp only [writeStep]
  generalize (it.1 * scale + it.2.2.1 : Nat) = nx
  generalize (it.2.1 * scale + it.2.2.2 : Nat) = ny
  split
  · rfl
  split
  · rfl
  next hcs hce =>
  split
  · have hcol : ¬(isColon = true ∧ scale = 1) := by
      rcases hplain with h1 | h1
      · simp [h1]
      · simp [h1]
    rw [if_neg (by simpa using hcol)]
    rw [setCell_ne]
    rcases hwin with ⟨a, rfl, hXa⟩ | ⟨b, rfl, hbX⟩
    · simp only [belowClipStart, decide_eq_true_eq] at hcs
      omega
    · simp only [pastClipEnd, decide_eq_true_eq] at hce
      omega
  · rfl

lemma drawChar_out_of_grid {w h scale : Nat} {cs ce : Option Int} {isColon : Bool}
    {x y : Int} (charData : List Nat) (g : Grid) {Y X : Int}
    (hout : X < 0 ∨ (w : Int) ≤ X ∨ Y < 0 ∨ (h : Int) ≤ Y) :
    drawChar w h scale cs ce isColon x y charData g Y X = g Y X :=
  foldl_preserve _ Y X (fun g it => writeStep_out_of_grid g it hout) _ g

lemma drawChar_row_lt {w h scale : Nat} {cs ce : Option Int} {isColon : Bool}
    {x y : Int} (charData : List Nat) (g : Grid) {Y X : Int} (hY : Y < y) :
    drawChar w h scale cs ce isColon x y charData g Y X = g Y X :=
  foldl_preserve _ Y X (fun g it => writeStep_row_lt g it hY) _ g

lemma drawChar_clip {w h scale : Nat} {cs ce : Option Int} {isColon : Bool}
    {x y : Int} (charData : List Nat) (g : Grid) {Y X : Int}
    (hplain : isColon = false ∨ scale ≠ 1)
    (hwin : (∃ a, cs = some a ∧ X < a) ∨ ∃ b, ce = some b ∧ b ≤ X) :
    drawChar w h scale cs ce isColon x y charData g Y X = g Y X :=
  foldl_preserve _ Y X (fun g it => writeStep_clip g it hplain hwin) _ g

lemma drawTextAux_out_of_grid {font : Font} {w h scale : Nat} {cs ce : Option Int}
    {y : Int} {Y X : Int} (hout : X < 0 ∨ (w : Int) ≤ X ∨ Y < 0 ∨ (h : Int) ≤ Y) :
    ∀ (l : List Char) (x : Int) (g : Grid),
      drawTextAux font w h scale cs ce y l x g Y X = g Y X := by
  intro l
  induction l with
  | nil => intro x g; rfl
  | cons c rest ih =>
    intro x g
    simp only [drawTextAux]
    cases hfc : font c with
    | none => exact ih x g
    | some charData =>
      dsimp only
      rw [ih, drawChar_out_of_grid charData g hout]

lemma drawText_out_of_grid {font : Font} {w h scale : Nat} {cs ce : Option Int}
    (text : String) {x y : Int} (g : Grid) {Y X : Int}
    (hout : X < 0 ∨ (w : Int) ≤ X ∨ Y < 0 ∨ (h : Int) ≤ Y) :
    drawText w h font text x y scale cs ce g Y X = g Y X :=
  drawTextAux_out_of_grid hout _ x g

lemma drawTextAux_row_lt {font : Font} {w h scale : Nat} {cs ce : Option Int}
    {y : Int} {Y X : Int} (hY : Y < y) :
    ∀ (l : List Char) (x : Int) (g : Grid),
      drawTextAux font w h scale cs ce y l x g Y X = g Y X := by
  intro l
  induction l with
  | nil => intro x g; rfl
  | cons c rest ih =>
    intro x g
    simp only [drawTextAux]
    cases hfc : font c with
    | none => exact ih x g
    | some charData =>
      dsimp only
      rw [ih, drawChar_row_lt charData g hY]

lemma drawText_row_lt {font : Font} {w h scale : Nat} {cs ce : Option Int}
    (text : String) {x y : Int} (g : Grid) {Y X : Int} (hY : Y < y) :
    drawText w h font text x y scale cs ce g Y X = g Y X :=
  drawTextAux_row_lt hY _ x g

lemma drawTextAux_clip {font : Font} {w h scale : Nat} {cs ce : Option Int}
    {y : Int} {Y X : Int}
    (hwin : (∃ a, cs = some a ∧ X < a) ∨ ∃ b, ce = some b ∧ b ≤ X) :
    ∀ (l : List Char), (scale ≠ 1 ∨ ∀ c ∈ l, c ≠ ':') → ∀ (x : Int) (g : Grid),
      drawTextAux font w h scale cs ce y l x g Y X = g Y X := by
  intro l
  induction l with
  | nil => intro _ x g; rfl
  | cons c rest ih =>
    intro hplain x g
    have hrest : scale ≠ 1 ∨ ∀ a ∈ rest, a ≠ ':' := by
      rcases hplain with hs | hs
      · exact Or.inl hs
      · exact Or.inr fun a ha => hs a (List.mem_cons_of_mem c ha)
    have hc : (decide (c = ':') = false) ∨ scale ≠ 1 := by
      rcases hplain with hs | hs
      · exact Or.inr hs
      · exact Or.inl (by simpa using hs c (List.mem_cons_self c rest))
    simp only [drawTextAux]
    cases hfc : font c with
    | none => exact ih hrest x g
    | some charData =>
      dsimp only
      rw [ih hrest, drawChar_clip charData g hc hwin]

lemma drawText_clip {font : Font} {w h scale : Nat} {cs ce : Option Int}
    (text : String) {x y : Int} (g : Grid) {Y X : Int}
    (hplain : scale ≠ 1 ∨ ∀ c ∈ text.toList.map Char.toUpper, c ≠ ':')
    (hwin : (∃ a, cs = some a ∧ X < a) ∨ ∃ b, ce = some b ∧ b ≤ X) :
    drawText w h font text x y scale cs ce g Y X = g Y X :=
  drawTextAux_clip hwin _ hplain x g

/-! The colon override is inert whenever the scale is not 1, and for every
character other than the colon. -/

lemma writeStep_plain_of_scale_ne {w h scale : Nat} {cs ce : Option Int}
    (isColon : Bool) {x y : Int} (hs : scale ≠ 1) :
    writeStep w h scale cs ce isColon x y = writeStep w h scale cs ce false x y := by
  funext g it
  simp [writeStep, hs]

lemma drawTextAux_plain_of_scale_ne {font : Font} {w h scale : Nat}
    {cs ce : Option Int} {y : Int} (hs : scale ≠ 1) :
    ∀ (l : List Char) (x : Int) (g : Grid),
      drawTextAux font w h scale cs ce y l x g
        = drawTextPlainAux font w h scale cs ce y l x g := by
  intro l
  induction l with
  | nil => intro x g; rfl
  | cons c rest ih =>
    intro x g
    simp only [drawTextAux, drawTextPlainAux]
    cases hfc : font c with
    | none => exact ih x g
    | some charData =>
      dsimp only
      rw [show drawChar w h scale cs ce (decide (c = ':')) x y charData g
            = drawChar w h scale cs ce false x y charData g by
          unfold drawChar
          rw [writeStep_plain_of_scale_ne _ hs]]
      exact ih _ _

lemma drawTextAux_plain_of_no_colon {font : Font} {w h scale : Nat}
    {cs ce : Option Int} {y : Int} :
    ∀ (l : List Char), (∀ c ∈ l, c ≠ ':') → ∀ (x : Int) (g : Grid),
      drawTextAux font w h scale cs ce y l x g
        = drawTextPlainAux font w h scale cs ce y l x g := by
  intro l
  induction l with
  | nil => intro _ x g; rfl
  | cons c rest ih =>
    intro hnc x g
    have hc : decide (c = ':') = false := by
      simpa using hnc c (List.mem_cons_self c rest)
    have hrest : ∀ a ∈ rest, a ≠ ':' := fun a ha => hnc a (List.mem_cons_of_mem c ha)
    simp only [drawTextAux, drawTextPlainAux, hc]
    cases hfc : font c with
    | none => exact ih hrest x g
    | some charData => exact ih hrest _ _

/-! List access over mapped ranges, used to pick individual scroll frames. -/

lemma getD_map_range {β : Type} (F : Nat → β) (n i : Nat) (hi : i < n) (d : β) :
    ((List.range n).map F).getD i d = F i := by
  rw [List.getD_eq_getElem?_getD, List.getElem?_map, List.getElem?_range hi]
  rfl

lemma headD_map_range {β : Type} (F : Nat → β) (n : Nat) (hn : 0 < n) (d : β) :
    ((List.range n).map F).headD d = F 0 := by
  obtain ⟨m, rfl⟩ : ∃ m, n = m + 1 := ⟨n - 1, by omega⟩
  rw [List.range_succ_eq_map]
  rfl

/-- Rows above the second text row (pixel rows `Y < 14`) of a scroll frame do
not depend on the scroll offset: only the two line-1 draws reach them. -/
lemma scrollGrid_lt14 (font : Font) (l1l l1r l2 l3 : String) (xpos : Int)
    (s2 s3 : Bool) (w2 w3 : Nat) (i j : Nat) (Y X : Int) (hY : Y < 14) :
    scrollGrid font l1l l1r l2 l3 xpos s2 s3 w2 w3 i Y X
      = scrollGrid font l1l l1r l2 l3 xpos s2 s3 w2 w3 j Y X := by
  have key : ∀ k : Nat, scrollGrid font l1l l1r l2 l3 xpos s2 s3 w2 w3 k Y X
      = drawText MATRIX_WIDTH MATRIX_HEIGHT font l1r xpos 1 1 none none
          (drawText MATRIX_WIDTH MATRIX_HEIGHT font l1l (margin : Int) 1 1 none none emptyGrid)
          Y X := by
    intro k
    simp only [scrollGrid]
    by_cases hs3 : s3 = true <;> by_cases hs2 : s2 = true <;>
      simp only [hs3, hs2, if_true, if_false, Bool.false_eq_true] <;>
      (repeat rw [drawText_row_lt _ _ (show Y < (24 : Int) by omega)]) <;>
      (repeat rw [drawText_row_lt _ _ (show Y < (14 : Int) by omega)])
  rw [key i, key j]

/-- Under the modelled font the scale-1 colon renders as exactly one solid
2×2 block whose top-left corner is the glyph's nominal top-left cell. -/
lemma colon_block (g : Grid) (x0 y0 : Int) (hx0 : 0 ≤ x0) (hx1 : x0 + 1 < 64)
    (hy0 : 0 ≤ y0) (hy1 : y0 + 1 < 32) (Y X : Int) :
    drawText 64 32 DOT_MATRIX_FONT ":" x0 y0 1 none none g Y X
      = (g Y X || decide ((Y = y0 ∨ Y = y0 + 1) ∧ (X = x0 ∨ X = x0 + 1))) := by
  have hchars : (":".toList.map Char.toUpper) = [':'] := by decide
  have hf : DOT_MATRIX_FONT ':' = some [1] := by decide
  rw [drawText, hchars]
  simp only [drawTextAux]
  rw [hf]
  dsimp only
  have hit : glyphIters [1] 1 = [(0, 0, 0, 0)] := by decide
  rw [drawChar, hit, List.foldl_cons, List.foldl_nil]
  simp only [writeStep, belowClipStart, pastClipEnd]
  norm_num
  rw [if_pos (by omega : 0 ≤ x0 ∧ x0 < (64 : Int) ∧ 0 ≤ y0 ∧ y0 < (32 : Int))]
  rw [if_pos (by omega : x0 + 1 < (64 : Int) ∧ y0 + 1 < (32 : Int))]
  simp only [setCell_eq_or]
  rw [Bool.eq_iff_iff]
  simp only [Bool.or_eq_true, Bool.and_eq_true, decide_eq_true_eq]
  tauto

/-! Evaluation lemmas for the colour gradient. -/

lemma gsc_zero : get_status_colour 0 = (255, 255, 0) := by
  simp only [get_status_colour, pyInt]
  norm_num

lemma gsc_early : ∀ d : ℚ, d ≤ -3600 → get_status_colour d = (0, 255, 0) := by
  intro d hd
  have hdle : d ≤ 0 := le_trans hd (by norm_num)
  have h1 : (1 : ℚ) ≤ d / (-3600) := by
    rw [le_div_iff_of_neg (by norm_num : (-3600 : ℚ) < 0)]
    linarith
  have hp : 1 - d / (-3600) ≤ 0 := by linarith
  simp only [get_status_colour, if_pos hdle]
  rw [min_eq_right (le_trans hp zero_le_one), max_eq_left hp]
  simp [pyInt]

lemma gsc_late : ∀ d : ℚ, 7200 ≤ d → get_status_colour d = (255, 0, 0) := by
  intro d hd
  have hdpos : ¬(d ≤ 0) := by linarith
  have h1 : (1 : ℚ) ≤ d / 7200 := by
    rw [le_div_iff₀ (by norm_num : (0 : ℚ) < 7200)]
    linarith
  simp only [get_status_colour, if_neg hdpos]
  rw [min_eq_left h1, max_eq_right zero_le_one]
  norm_num [pyInt]

lemma gsc_neg3600 : get_status_colour (-3600) = (0, 255, 0) :=
  gsc_early _ le_rfl

lemma gsc_7200 : get_status_colour 7200 = (255, 0, 0) :=
  gsc_late _ le_rfl

lemma gsc_mid_early : get_status_colour (-1800) = (127, 255, 0) := by
  simp only [get_status_colour, if_pos (by norm_num : (-1800 : ℚ) ≤ 0)]
  rw [show (1 : ℚ) - (-1800) / (-3600) = 1 / 2 by norm_num]
  rw [min_eq_right (by norm_num), max_eq_right (by norm_num)]
  norm_num [pyInt]

lemma gsc_mid_late : get_status_colour 3600 = (255, 127, 0) := by
  simp only [get_status_colour, if_neg (by norm_num : ¬((3600 : ℚ) ≤ 0))]
  rw [show (3600 : ℚ) / 7200 = 1 / 2 by norm_num]
  rw [min_eq_right (by norm_num), max_eq_right (by norm_num)]
  norm_num [pyInt]

lemma pyInt_bounds {q : ℚ} (h0 : 0 ≤ q) (h255 : q ≤ 255) :
    0 ≤ pyInt q ∧ pyInt q ≤ 255 := by
  rw [pyInt, if_pos h0]
  constructor
  · exact Int.floor_nonneg.mpr h0
  · calc ⌊q⌋ ≤ ⌊(255 : ℚ)⌋ := Int.floor_le_floor h255
      _ = 255 := by norm_num

/-! Fold lemmas for the width computation. -/

lemma width_shift (scale : Nat) :
    ∀ (l : List (List Nat)) (acc : Nat),
      List.foldl (fun a cd => a + (cd.length + 1) * scale) acc l
        = acc + List.foldl (fun a cd => a + (cd.length + 1) * scale) 0 l := by
  intro l
  induction l with
  | nil => intro acc; simp
  | cons cd t ih =>
    intro acc
    rw [List.foldl_cons, List.foldl_cons,
      ih (acc + (cd.length + 1) * scale), ih ((0 : Nat) + (cd.length + 1) * scale)]
    generalize (cd.length + 1) * scale = v
    omega

lemma gtw_fold (font : Font) (scale : Nat) :
    ∀ (l : List Char) (acc : Nat),
      List.foldl (widthStep font scale) acc l
        = acc + List.foldl (fun a cd => a + (cd.length + 1) * scale) 0 (l.filterMap font) := by
  intro l
  induction l with
  | nil => intro acc; simp
  | cons c t ih =>
    intro acc
    rw [List.foldl_cons]
    cases hfc : font c with
    | none =>
      have hstep : widthStep font scale acc c = acc := by rw [widthStep, hfc]
      simp only [List.filterMap_cons, hfc, hstep]
      exact ih acc
    | some cd =>
      have hstep : widthStep font scale acc c = acc + (cd.length + 1) * scale := by
        rw [widthStep, hfc]
      simp only [List.filterMap_cons, hfc, hstep, List.foldl_cons]
      rw [ih, width_shift scale (t.filterMap font) ((0 : Nat) + (cd.length + 1) * scale)]
      generalize (cd.length + 1) * scale = v
      omega

end FlightDisplay

namespace FlightDisplay

/-! Claim theorems. -/

/-- C1 (counterexample): with the modelled font, the city "AAAAAAAAAAA"
measures 65 > 60 so row 2 scrolls and is the longer overflowing row, yet the
scrolling sequence has `65 + 64 = 129` frames — the measured width of the
row-2 text WITHOUT its scroll padding plus the panel width — and not the
`74 + 64 = 138` frames that the claim's
`measure(row2_text_with_padding) + panel_width` predicts. -/
theorem c1_counterexample :
    60 < get_text_width DOT_MATRIX_FONT "AAAAAAAAAAA" 1
  ∧ get_text_width DOT_MATRIX_FONT "A" 1 ≤ get_text_width DOT_MATRIX_FONT "AAAAAAAAAAA" 1
  ∧ (generate_display_image DOT_MATRIX_FONT "" "" "A" "AAAAAAAAAAA" 0).toFrames.length
      = get_text_width DOT_MATRIX_FONT "AAAAAAAAAAA" 1 + MATRIX_WIDTH
  ∧ (generate_display_image DOT_MATRIX_FONT "" "" "A" "AAAAAAAAAAA" 0).toFrames.length
      ≠ get_text_width DOT_MATRIX_FONT ("AAAAAAAAAAA" ++ "   ") 1 + MATRIX_WIDTH := by
  exact ⟨by decide, by decide, by rfl, by decide⟩

/-- C1 (amended): whenever the measured width of the row-2 text exceeds
`panel_width - 2*margin = 60` and row 2 is the longer overflowing row,
`generate_display_image` returns more than one frame, and the number of
frames equals `measure(row2_text) + panel_width` — the measured width of the
UNPADDED row-2 text plus the 64-pixel panel width. -/
theorem c1_frame_count_amended (font : Font)
    (flight_number origin_code aircraft_type origin_city : String) (delta : ℚ)
    (h2 : 60 < get_text_width font origin_city 1)
    (h32 : get_text_width font aircraft_type 1 ≤ get_text_width font origin_city 1) :
    ∃ fr : List Image,
      generate_display_image font flight_number origin_code aircraft_type origin_city delta
        = .animation fr
      ∧ fr.length = get_text_width font origin_city 1 + 64
      ∧ 1 < fr.length := by
  simp only [generate_display_image]
  split
  · next hcond =>
    exfalso
    simp only [MATRIX_WIDTH, margin, Bool.not_eq_true', Bool.or_eq_false_iff,
      decide_eq_false_iff_not] at hcond
    omega
  · refine ⟨_, rfl, ?_, ?_⟩
    · simp only [List.length_map, List.length_range]
      have hs2 : decide (MATRIX_WIDTH - 2 * margin < get_text_width font origin_city 1)
          = true := by
        simp only [MATRIX_WIDTH, margin, decide_eq_true_eq]
        omega
      rw [hs2]
      simp only [if_true, Nat.zero_max]
      split
      · next hs3 =>
        rw [Nat.max_eq_left h32]
        rfl
      · rfl
    · simp only [List.length_map, List.length_range, MATRIX_WIDTH]
      omega

/-- Witness for C1 (amended) at the counterexample input: row 2 is
"AAAAAAAAAAA" of width 65 > 60 and row 3 is "A" of width 5. -/
theorem c1_frame_count_amended_witness :
    ∃ fr : List Image,
      generate_display_image DOT_MATRIX_FONT "" "" "A" "AAAAAAAAAAA" 0 = .animation fr
      ∧ fr.length = get_text_width DOT_MATRIX_FONT "AAAAAAAAAAA" 1 + 64
      ∧ 1 < fr.length :=
  c1_frame_count_amended DOT_MATRIX_FONT "" "" "A" "AAAAAAAAAAA" 0 (by decide) (by decide)

/-- C2 (counterexample): in frame 2 of the scrolling sequence for the city
"AAAAAAAAAAA" (row 2 scrolls, offset `i = 2` puts the first glyph column at
`x = margin - 2 = 0`), the pixel at `x = 0, y = 15` is lit in the on-colour
`(255,255,0)` even though `0 < margin` — the scrolled copies are NOT clipped
to `[margin, panel_width - margin)`. -/
theorem c2_counterexample :
    60 < get_text_width DOT_MATRIX_FONT "AAAAAAAAAAA" 1
  ∧ ((generate_display_image DOT_MATRIX_FONT "" "" "A" "AAAAAAAAAAA" 0).toFrames.getD 2
      blackImage) 0 15 = (255, 255, 0)
  ∧ (0 : Int) < (margin : Int) := by
  refine ⟨by decide, ?_, by decide⟩
  simp only [generate_display_image, gsc_zero]
  decide

/-- C2 (amended): the scrolled copies of an overflowing row are drawn with no
clip window at all, so scrolling text may light pixels anywhere on the panel,
including `x < margin`; the only clipping is the grid-bounds check — no frame
of a scrolling sequence ever has a non-black pixel outside the 64×32 canvas. -/
theorem c2_grid_bounds_amended (font : Font)
    (flight_number origin_code aircraft_type origin_city : String) (delta : ℚ)
    (fr : List Image)
    (hgen : generate_display_image font flight_number origin_code aircraft_type origin_city
      delta = .animation fr) :
    ∀ i < fr.length, ∀ x y : Int,
      (x < 0 ∨ (MATRIX_WIDTH : Int) ≤ x ∨ y < 0 ∨ (MATRIX_HEIGHT : Int) ≤ y) →
      (fr.getD i blackImage) x y = black := by
  simp only [generate_display_image] at hgen
  split at hgen
  · exact absurd hgen (by simp)
  · rw [DisplayOutput.animation.injEq] at hgen
    subst hgen
    intro i hi x y hout
    rw [List.length_map, List.length_range] at hi
    rw [getD_map_range _ _ _ hi]
    simp only [get_image]
    rw [if_neg]
    intro hcon
    simp only [MATRIX_WIDTH, MATRIX_HEIGHT] at hout hcon
    omega

/-- Witness for C2 (amended): the pixel just left of the panel is black in
frame 2 of the counterexample's scrolling sequence. -/
theorem c2_grid_bounds_amended_witness :
    ((generate_display_image DOT_MATRIX_FONT "" "" "A" "AAAAAAAAAAA" 0).toFrames.getD 2
      blackImage) (-1) 15 = black := by
  refine c2_grid_bounds_amended DOT_MATRIX_FONT "" "" "A" "AAAAAAAAAAA" 0 _ rfl 2 ?_ (-1) 15
    (by decide)
  decide

/-- C3: the gradient anchors of `get_status_colour`: yellow `(255,255,0)` at
0, green `(0,255,0)` at -3600, red `(255,0,0)` at 7200; every delta at most
-3600 is clamped to the -3600 colour and every delta at least 7200 to the
7200 colour; and the two sides carry their own scales — the early side
reaches half-way `(127,255,0)` at -1800 (scale 3600 s) and the late side
reaches half-way `(255,127,0)` at 3600 (scale 7200 s). -/
theorem c3_gradient_anchors :
    get_status_colour 0 = (255, 255, 0)
  ∧ get_status_colour (-3600) = (0, 255, 0)
  ∧ get_status_colour 7200 = (255, 0, 0)
  ∧ (∀ d : ℚ, d ≤ -3600 → get_status_colour d = get_status_colour (-3600))
  ∧ (∀ d : ℚ, 7200 ≤ d → get_status_colour d = get_status_colour 7200)
  ∧ get_status_colour (-1800) = (127, 255, 0)
  ∧ get_status_colour 3600 = (255, 127, 0) :=
  ⟨gsc_zero, gsc_neg3600, gsc_7200,
    fun d hd => by rw [gsc_early d hd, gsc_neg3600],
    fun d hd => by rw [gsc_late d hd, gsc_7200],
    gsc_mid_early, gsc_mid_late⟩

/-- Witness for C3 at the clamped inputs named by the claim. -/
theorem c3_gradient_anchors_witness :
    get_status_colour (-10000) = get_status_colour (-3600)
  ∧ get_status_colour 20000 = get_status_colour 7200 :=
  ⟨c3_gradient_anchors.2.2.2.1 (-10000) (by decide),
   c3_gradient_anchors.2.2.2.2.1 20000 (by decide)⟩

/-- C4: when both the row-2 and the row-3 text measure at most
`panel_width - 2*margin = 60`, `generate_display_image` returns exactly one
static frame, drawn per the fixed layout: rows at y = 1, 14, 24, rows 2 and 3
left-aligned at x = margin, row 1's right label at
`x = panel_width - measure(label) - margin` (the layout is `staticFrameSpec`). -/
theorem c4_static_fit (font : Font)
    (flight_number origin_code aircraft_type origin_city : String) (delta : ℚ)
    (h2 : get_text_width font origin_city 1 ≤ 60)
    (h3 : get_text_width font aircraft_type 1 ≤ 60) :
    generate_display_image font flight_number origin_code aircraft_type origin_city delta
      = .static (staticFrameSpec font flight_number origin_code aircraft_type origin_city delta)
  ∧ (DisplayOutput.static (staticFrameSpec font flight_number origin_code aircraft_type
      origin_city delta)).toFrames.length = 1 := by
  constructor
  · simp only [generate_display_image]
    split
    · rfl
    · next hcond =>
      exfalso
      simp only [MATRIX_WIDTH, margin, Bool.not_eq_true', Bool.or_eq_false_iff,
        decide_eq_false_iff_not] at hcond
      omega
  · rfl

/-- Witness for C4: all four labels "A" fit, so the output is the single
static frame of the spec layout. -/
theorem c4_static_fit_witness :
    generate_display_image DOT_MATRIX_FONT "A" "A" "A" "A" 0
      = .static (staticFrameSpec DOT_MATRIX_FONT "A" "A" "A" "A" 0)
  ∧ (DisplayOutput.static (staticFrameSpec DOT_MATRIX_FONT "A" "A" "A" "A" 0)).toFrames.length
      = 1 :=
  c4_static_fit DOT_MATRIX_FONT "A" "A" "A" "A" 0 (by decide) (by decide)

/-- C5 (counterexample): `SimulatorDisplay.show` with an empty frame list is
NOT treated like `clear()`: its static branch runs (`len(images) <= 1`) and
evaluates `images[0]`, which raises `IndexError` on an empty list — modelled
as the `none` result. -/
theorem c5_counterexample :
    simulatorShow "simulated_displays" [] "unknown" = none := rfl

/-- C5 (amended): on the hardware sink, `show([])` is exactly `clear()` — the
published frame list becomes empty and the worker loop's next iteration
blanks the panel — and does not throw; the file-based simulator sink instead
indexes `images[0]` and raises `IndexError` on an empty sequence. -/
theorem c5_empty_show_amended :
    (∀ st : MatrixState, matrixShow st [] = matrixClear st)
  ∧ matrixLoopStep [] = .clearPanel
  ∧ (∀ save_folder flight_number : String,
      simulatorShow save_folder [] flight_number = none) :=
  ⟨fun _ => rfl, rfl, fun _ _ => rfl⟩

/-- C6: at scale 1 the colon renders as a single synthetic 2×2 solid block at
the glyph's nominal top-left cell (under the modelled font, whose colon glyph
has its one lit cell at the top-left); at any scale greater than 1 the colon
is rendered from its literal bitmap exactly like every other glyph (drawing
equals the override-free `drawTextPlain`); and no character other than the
colon ever receives the override (for colon-free text, drawing equals
`drawTextPlain` at every scale). -/
theorem c6_colon_override :
    (∀ (g : Grid) (x0 y0 : Int), 0 ≤ x0 → x0 + 1 < 64 → 0 ≤ y0 → y0 + 1 < 32 →
      ∀ Y X : Int, drawText 64 32 DOT_MATRIX_FONT ":" x0 y0 1 none none g Y X
        = (g Y X || decide ((Y = y0 ∨ Y = y0 + 1) ∧ (X = x0 ∨ X = x0 + 1))))
  ∧ (∀ (w h : Nat) (font : Font) (text : String) (x y : Int) (scale : Nat)
      (cs ce : Option Int) (g : Grid), 1 < scale →
      drawText w h font text x y scale cs ce g = drawTextPlain w h font text x y scale cs ce g)
  ∧ (∀ (w h : Nat) (font : Font) (text : String) (x y : Int) (scale : Nat)
      (cs ce : Option Int) (g : Grid), (∀ c ∈ text.toList.map Char.toUpper, c ≠ ':') →
      drawText w h font text x y scale cs ce g
        = drawTextPlain w h font text x y scale cs ce g) :=
  ⟨fun g x0 y0 h1 h2 h3 h4 Y X => colon_block g x0 y0 h1 h2 h3 h4 Y X,
   fun _ _ font text x y scale cs ce g hs =>
     drawTextAux_plain_of_scale_ne (by omega) (text.toList.map Char.toUpper) x g,
   fun _ _ font text x y scale cs ce g hnc =>
     drawTextAux_plain_of_no_colon (text.toList.map Char.toUpper) hnc x g⟩

/-- Witness for C6: the colon at (5,5) lights (6,6) through its 2×2 block at
scale 1, and concrete drawings at scale 2 and of a colon-free text agree with
the override-free renderer. -/
theorem c6_colon_override_witness :
    drawText 64 32 DOT_MATRIX_FONT ":" 5 5 1 none none emptyGrid 6 6 = true
  ∧ drawText 64 32 DOT_MATRIX_FONT ":" 0 0 2 none none emptyGrid
      = drawTextPlain 64 32 DOT_MATRIX_FONT ":" 0 0 2 none none emptyGrid
  ∧ drawText 64 32 DOT_MATRIX_FONT "A" 0 0 1 none none emptyGrid
      = drawTextPlain 64 32 DOT_MATRIX_FONT "A" 0 0 1 none none emptyGrid := by
  refine ⟨?_,
    c6_colon_override.2.1 64 32 DOT_MATRIX_FONT ":" 0 0 2 none none emptyGrid (by decide),
    c6_colon_override.2.2 64 32 DOT_MATRIX_FONT "A" 0 0 1 none none emptyGrid (by decide)⟩
  rw [c6_colon_override.1 emptyGrid 5 5 (by decide) (by decide) (by decide) (by decide) 6 6]
  decide

/-- C7: for every font, text and scale `s ≥ 1`, `get_text_width` equals the
sum over the uppercased characters present in the font of
`(glyph_width + 1) * s` minus one trailing `s` (truncated at 0, which the
`Nat` subtraction provides), and the empty string measures 0. -/
theorem c7_text_width (font : Font) (text : String) (scale : Nat) (hs : 1 ≤ scale) :
    get_text_width font text scale = sumGlyphWidths font text scale - scale
  ∧ get_text_width font "" scale = 0 := by
  constructor
  · simp only [get_text_width, sumGlyphWidths]
    rw [gtw_fold font scale]
    omega
  · simp [get_text_width]

/-- Witness for C7 on a text with a gap and an unsupported character. -/
theorem c7_text_width_witness :
    get_text_width DOT_MATRIX_FONT "A zA" 1 = sumGlyphWidths DOT_MATRIX_FONT "A zA" 1 - 1
  ∧ get_text_width DOT_MATRIX_FONT "" 1 = 0 :=
  c7_text_width DOT_MATRIX_FONT "A zA" 1 (by decide)

/-- C8: in every multi-frame scrolling sequence produced by
`generate_display_image` the whole band of pixel rows `y < 14` — which
contains all of row 1's content (the origin code at x = margin and the
right-aligned flight number, drawn at y = 1) — is pixel-for-pixel identical
between every frame and the first frame. -/
theorem c8_row1_static (font : Font)
    (flight_number origin_code aircraft_type origin_city : String) (delta : ℚ)
    (fr : List Image)
    (hgen : generate_display_image font flight_number origin_code aircraft_type origin_city
      delta = .animation fr) :
    ∀ i < fr.length, ∀ x y : Int, y < 14 →
      (fr.getD i blackImage) x y = (fr.headD blackImage) x y := by
  simp only [generate_display_image] at hgen
  split at hgen
  · exact absurd hgen (by simp)
  · rw [DisplayOutput.animation.injEq] at hgen
    subst hgen
    intro i hi x y hy
    rw [List.length_map, List.length_range] at hi
    rw [getD_map_range _ _ _ hi, headD_map_range _ _ (by omega)]
    have hg := scrollGrid_lt14 font origin_code flight_number origin_city aircraft_type
      ((MATRIX_WIDTH : Int) - get_text_width font flight_number 1 - (margin : Int))
      (decide (MATRIX_WIDTH - 2 * margin < get_text_width font origin_city 1))
      (decide (MATRIX_WIDTH - 2 * margin < get_text_width font aircraft_type 1))
      (get_text_width font origin_city 1) (get_text_width font aircraft_type 1)
      i 0 y x hy
    simp only [get_image]
    rw [hg]

/-- Witness for C8: a row-1 pixel of frame 1 equals the same pixel of the
first frame in the counterexample's scrolling sequence. -/
theorem c8_row1_static_witness :
    ((generate_display_image DOT_MATRIX_FONT "" "" "A" "AAAAAAAAAAA" 0).toFrames.getD 1
      blackImage) 2 1
      = ((generate_display_image DOT_MATRIX_FONT "" "" "A" "AAAAAAAAAAA" 0).toFrames.headD
        blackImage) 2 1 := by
  refine c8_row1_static DOT_MATRIX_FONT "" "" "A" "AAAAAAAAAAA" 0 _ rfl 1 ?_ 2 1 (by decide)
  decide

/-- C9 (counterexample): `draw_text` does NOT drop every write that falls
outside the clip window: drawing ":" at scale 1 with `clip_x_end = 6` from
`x_start = 5`, the colon override clip-checks only `draw_x = 5` and then
writes the whole 2×2 block, lighting the cell at `x = 6` — which lies outside
the window `[.., 6)`. -/
theorem c9_counterexample :
    drawText 64 32 DOT_MATRIX_FONT ":" 5 5 1 none (some 6) emptyGrid 5 6 = true
  ∧ ¬((6 : Int) < 6) := by decide

/-- C9 (amended): `draw_text` is total and never writes outside the pixel
grid — for every text, position (negative included), scale and clip window,
every cell outside the `w × h` grid keeps its value; and writes outside the
clip window are dropped per pixel EXCEPT by the colon-at-scale-1 override,
which clip-checks only the top-left cell of its 2×2 block (so whenever the
scale is not 1 or the text contains no colon, cells outside the clip window
keep their value too). -/
theorem c9_bounds_amended :
    ∀ (w h : Nat) (font : Font) (text : String) (x y : Int) (scale : Nat)
      (cs ce : Option Int) (g : Grid) (Y X : Int),
    ((X < 0 ∨ (w : Int) ≤ X ∨ Y < 0 ∨ (h : Int) ≤ Y) →
      drawText w h font text x y scale cs ce g Y X = g Y X)
  ∧ ((scale ≠ 1 ∨ ∀ c ∈ text.toList.map Char.toUpper, c ≠ ':') →
      ((∃ a, cs = some a ∧ X < a) ∨ ∃ b, ce = some b ∧ b ≤ X) →
      drawText w h font text x y scale cs ce g Y X = g Y X) :=
  fun _ _ font text x y scale cs ce g Y X =>
    ⟨fun hout => drawText_out_of_grid text g hout,
     fun hplain hwin => drawText_clip text g hplain hwin⟩

/-- Witness for C9 (amended): a cell left of the grid stays unlit, and a cell
left of a clip-window start stays unlit for colon-free text. -/
theorem c9_bounds_amended_witness :
    drawText 64 32 DOT_MATRIX_FONT "A" 0 0 1 none none emptyGrid 0 (-1) = emptyGrid 0 (-1)
  ∧ drawText 64 32 DOT_MATRIX_FONT "A" 5 0 1 (some 10) none emptyGrid 0 7 = emptyGrid 0 7 :=
  ⟨(c9_bounds_amended 64 32 DOT_MATRIX_FONT "A" 0 0 1 none none emptyGrid 0 (-1)).1
      (by decide),
   (c9_bounds_amended 64 32 DOT_MATRIX_FONT "A" 5 0 1 (some 10) none emptyGrid 0 7).2
      (by decide) (Or.inl ⟨10, rfl, by decide⟩)⟩

/-- C10: for every delta, `get_status_colour` returns an integer RGB triple
with blue exactly 0 and red and green in [0, 255]; for delta ≤ 0 green is
exactly 255 and for delta > 0 red is exactly 255 — the colour always lies on
the full-brightness green-yellow-red axis. -/
theorem c10_colour_range (d : ℚ) :
    (get_status_colour d).2.2 = 0
  ∧ 0 ≤ (get_status_colour d).1 ∧ (get_status_colour d).1 ≤ 255
  ∧ 0 ≤ (get_status_colour d).2.1 ∧ (get_status_colour d).2.1 ≤ 255
  ∧ (d ≤ 0 → (get_status_colour d).2.1 = 255)
  ∧ (0 < d → (get_status_colour d).1 = 255) := by
  by_cases hd : d ≤ 0
  · have hgsc : get_status_colour d
        = (pyInt (((0 : Int) : ℚ) * (1 - max 0 (min 1 (1 - d / (-3600))))
            + ((255 : Int) : ℚ) * max 0 (min 1 (1 - d / (-3600)))), 255, 0) := by
      simp only [get_status_colour, if_pos hd]
    set p : ℚ := max 0 (min 1 (1 - d / (-3600))) with hpdef
    have hp0 : (0 : ℚ) ≤ p := le_max_left _ _
    have hp1 : p ≤ 1 := max_le zero_le_one (min_le_left _ _)
    have hq : ((0 : Int) : ℚ) * (1 - p) + ((255 : Int) : ℚ) * p = 255 * p := by
      push_cast
      ring
    rw [hgsc, hq]
    have hb := pyInt_bounds (q := (255 : ℚ) * p) (by nlinarith) (by nlinarith)
    exact ⟨rfl, hb.1, hb.2, by norm_num, by norm_num, fun _ => rfl,
      fun hcon => absurd hd (not_le.mpr hcon)⟩
  · have hgsc : get_status_colour d
        = (255, pyInt (((255 : Int) : ℚ) * (1 - max 0 (min 1 (d / 7200)))
            + ((0 : Int) : ℚ) * max 0 (min 1 (d / 7200))), 0) := by
      simp only [get_status_colour, if_neg hd]
    set p : ℚ := max 0 (min 1 (d / 7200)) with hpdef
    have hp0 : (0 : ℚ) ≤ p := le_max_left _ _
    have hp1 : p ≤ 1 := max_le zero_le_one (min_le_left _ _)
    have hq : ((255 : Int) : ℚ) * (1 - p) + ((0 : Int) : ℚ) * p = 255 * (1 - p) := by
      push_cast
      ring
    rw [hgsc, hq]
    have hb := pyInt_bounds (q := (255 : ℚ) * (1 - p)) (by nlinarith) (by nlinarith)
    exact ⟨rfl, by norm_num, by norm_num, hb.1, hb.2, fun hcon => absurd hcon hd,
      fun _ => rfl⟩

/-- Witness for C10 on one early and one late delta. -/
theorem c10_colour_range_witness :
    (get_status_colour (-600)).2.1 = 255 ∧ (get_status_colour 600).1 = 255 :=
  ⟨(c10_colour_range (-600)).2.2.2.2.2.1 (by decide),
   (c10_colour_range 600).2.2.2.2.2.2 (by decide)⟩

end FlightDisplay
